import Mathlib

/-!
Verification development for the lot-based inventory allocation and billing
ledger of the server-IMS repository.  The definitions below are a shallow
embedding of the JavaScript source:

* `controllers/billController.js` — payment normalizers, the financial
  calculator `calculateFinancials`, bill creation (`createBill`, with its
  per-line-item FIFO batch allocation), and bill update (`updateBill`, with
  its per-product quantity reconciliation);
* `models/Bill.js` — the persisted bill item schema (`itemSchema`);
* `utils/stockNotifications.js` — the stock notifier.

JavaScript numbers are modelled as rationals (`ℚ`); `Math.round(v*100)/100`
becomes `roundToTwo` via Mathlib's `round` (both round half towards +∞ on the
exact values at issue).  MongoDB collections are modelled as Lean lists:
documents are records, `find`/`findOne` become list lookups, and a `save`
writes the modified copy back by key.  Errors thrown with an HTTP status are
modelled with `Except`; the error value carries the state of the persisted
store at throw time, because the controller performs its `save` calls
incrementally and a thrown error does not undo them.
-/

namespace IMS

/-- Money rounding from billController.js: `Math.round(v * 100) / 100`. -/
def roundToTwo (v : ℚ) : ℚ := (round (v * 100) : ℚ) / 100

/-- Percent clamping from billController.js:
`Math.min(Math.max(v, min), max)` (the `Number.isFinite` guard never fires on
a rational input). -/
def clamp (v lo hi : ℚ) : ℚ := min (max v lo) hi

/-- Valid payment methods (billController.js). -/
def VALID_PAYMENT_METHODS : List String := ["cash", "card", "upi", "bank_transfer", "credit"]

/-- Valid payment statuses (billController.js). -/
def VALID_PAYMENT_STATUSES : List String := ["pending", "paid", "partial"]

/-- Payment-method normalizer (billController.js `normalizePaymentMethod`). -/
def normalizePaymentMethod (method : String) : String :=
  if method = "bank" then "bank_transfer"
  else if VALID_PAYMENT_METHODS.contains method then method
  else "cash"

/-- Payment-status normalizer (billController.js `normalizePaymentStatus`). -/
def normalizePaymentStatus (status : String) : String :=
  if VALID_PAYMENT_STATUSES.contains status then status else "pending"

/-- Input line item of the financial calculator: only its `total` is read. -/
structure FinItem where
  total : ℚ
deriving DecidableEq

/-- Raw input record of `calculateFinancials`. -/
structure FinInput where
  items : List FinItem
  discountPercent : ℚ
  taxPercent : ℚ
  paidAmount : ℚ
  paymentStatus : String
deriving DecidableEq

/-- Output record of `calculateFinancials`. -/
structure FinOutput where
  subtotal : ℚ
  discountPercent : ℚ
  discountAmount : ℚ
  taxPercent : ℚ
  taxAmount : ℚ
  totalAmount : ℚ
  paidAmount : ℚ
  dueAmount : ℚ
  paymentStatus : String
deriving DecidableEq

/-- Subtotal stage of `calculateFinancials`:
`roundToTwo(items.reduce((sum, item) => sum + roundToTwo(item.total), 0))`. -/
def subtotalOf (items : List FinItem) : ℚ :=
  roundToTwo (items.foldl (fun sum item => sum + roundToTwo item.total) 0)

/-- Discount stage: `roundToTwo(subtotal * clampedDiscountPercent / 100)`. -/
def discountAmountOf (items : List FinItem) (discountPercent : ℚ) : ℚ :=
  roundToTwo (subtotalOf items * clamp discountPercent 0 100 / 100)

/-- Taxable base stage: `roundToTwo(Math.max(subtotal - discountAmount, 0))`. -/
def taxableBaseOf (items : List FinItem) (discountPercent : ℚ) : ℚ :=
  roundToTwo (max (subtotalOf items - discountAmountOf items discountPercent) 0)

/-- Tax stage: `roundToTwo(taxableBase * clampedTaxPercent / 100)`. -/
def taxAmountOf (items : List FinItem) (discountPercent taxPercent : ℚ) : ℚ :=
  roundToTwo (taxableBaseOf items discountPercent * clamp taxPercent 0 100 / 100)

/-- Total stage: `roundToTwo(taxableBase + taxAmount)`. -/
def totalAmountOf (items : List FinItem) (discountPercent taxPercent : ℚ) : ℚ :=
  roundToTwo (taxableBaseOf items discountPercent + taxAmountOf items discountPercent taxPercent)

/-- The financial calculator (billController.js `calculateFinancials`).
After the amount stages it normalizes the payment status, rounds the paid
amount, forces `paidAmount = totalAmount` when the status is `"paid"`, clamps
`paidAmount` to at most `totalAmount`, derives `dueAmount`, and downgrades a
`"paid"` status to `"partial"` when a due balance remains. -/
def calculateFinancials (inp : FinInput) : FinOutput :=
  let subtotal := subtotalOf inp.items
  let discountAmount := discountAmountOf inp.items inp.discountPercent
  let taxAmount := taxAmountOf inp.items inp.discountPercent inp.taxPercent
  let totalAmount := totalAmountOf inp.items inp.discountPercent inp.taxPercent
  let status0 := normalizePaymentStatus inp.paymentStatus
  let paid0 := roundToTwo inp.paidAmount
  let paid1 := if status0 = "paid" then totalAmount else paid0
  let paid2 := if paid1 > totalAmount then totalAmount else paid1
  let dueAmount := roundToTwo (max (totalAmount - paid2) 0)
  let statusFinal := if status0 = "paid" ∧ dueAmount > 0 then "partial" else status0
  { subtotal := subtotal
    discountPercent := clamp inp.discountPercent 0 100
    discountAmount := discountAmount
    taxPercent := clamp inp.taxPercent 0 100
    taxAmount := taxAmount
    totalAmount := totalAmount
    paidAmount := paid2
    dueAmount := dueAmount
    paymentStatus := statusFinal }

/-- Product document (models/Product.js).  The schema shown in the repository
has no `reorderLevel` path; productController.js nevertheless writes one, so
the field is modelled as optional — `none` stands for a document on which the
path is unset (`undefined` in JavaScript). -/
structure Product where
  id : Nat
  name : String
  price : ℚ
  quantity : ℚ
  reorderLevel : Option ℚ
deriving DecidableEq

/-- Product batch document (models/ProductBatch.js).  The pair
`(product, batchNumber)` is unique.  Dates are modelled as integers
(timestamps); `createdAt` is the insertion timestamp. -/
structure Batch where
  product : Nat
  batchNumber : String
  unitCost : ℚ
  quantity : ℚ
  receivedDate : Int
  manufacturingDate : Int
  createdAt : Int
deriving DecidableEq

/-- Customer document (models/Customer.js), restricted to the fields the bill
controller reads and writes. -/
structure Customer where
  id : Nat
  name : String
  email : String
  phone : String
  outstandingBalance : ℚ
deriving DecidableEq

/-- Persisted bill line item, exactly the paths of `itemSchema` in
models/Bill.js: `productId`, `name`, `quantity`, `price`, `total`.  The
schema declares no `batchNumber` path, so Mongoose (strict mode, the default)
drops that key from the controller's item objects when the bill is saved. -/
structure BillItem where
  productId : Nat
  name : String
  quantity : ℚ
  price : ℚ
  total : ℚ
deriving DecidableEq

/-- In-memory line item built by the bill controller before persistence.  In
`createBill` both allocation branches set a `batchNumber`; `updateBill` builds
items without one. -/
structure CtrlItem where
  productId : Nat
  batchNumber : Option String
  name : String
  quantity : ℚ
  price : ℚ
  total : ℚ
deriving DecidableEq

/-- Schema projection applied when a controller item is saved inside a bill:
only the paths declared by `itemSchema` survive (models/Bill.js). -/
def persistItem (it : CtrlItem) : BillItem :=
  { productId := it.productId
    name := it.name
    quantity := it.quantity
    price := it.price
    total := it.total }

/-- Persisted bill document (models/Bill.js `billSchema`), restricted to the
fields the claims concern.  Note the schema declares `subtotal`, `taxAmount`,
`discount`, `totalAmount`, `paidAmount`, `dueAmount`, `paymentStatus` and
`paymentMethod` but no `discountPercent`/`taxPercent` paths, so those two
keys of the controller's update are dropped on save. -/
structure PersistedBill where
  id : Nat
  customerId : Nat
  customerName : String
  customerEmail : String
  customerPhone : String
  items : List BillItem
  subtotal : ℚ
  taxAmount : ℚ
  discount : ℚ
  totalAmount : ℚ
  paidAmount : ℚ
  dueAmount : ℚ
  paymentStatus : String
  paymentMethod : String
deriving DecidableEq

/-- The persisted collections the bill controller touches. -/
structure Store where
  products : List Product
  batches : List Batch
  customers : List Customer
  bills : List PersistedBill
deriving DecidableEq

/-- Error thrown with an HTTP status (billController.js `httpError`). -/
structure HError where
  status : Nat
  message : String
deriving DecidableEq

/-- Constructor mirroring billController.js `httpError`. -/
def httpError (status : Nat) (message : String) : HError :=
  { status := status, message := message }

/-- Requested line item of a bill-creation payload: `productId`, `quantity`
and optional pinned `batchNumber` (createBill ignores a caller `price`). -/
structure ReqItem where
  productId : Nat
  quantity : ℚ
  batchNumber : Option String
deriving DecidableEq

/-- Bill-creation request body (the fields createBill reads). -/
structure CreateBillPayload where
  customerId : Nat
  items : List ReqItem
  discountPercent : ℚ
  taxPercent : ℚ
  paidAmount : ℚ
  paymentStatus : String
  paymentMethod : String
deriving DecidableEq

/-- `Product.findById` over the products collection. -/
def findProduct (products : List Product) (pid : Nat) : Option Product :=
  products.find? (fun p => p.id == pid)

/-- `Customer.findById` over the customers collection. -/
def findCustomer (customers : List Customer) (cid : Nat) : Option Customer :=
  customers.find? (fun c => c.id == cid)

/-- `ProductBatch.findOne({ product, batchNumber })`. -/
def findBatch (batches : List Batch) (pid : Nat) (bn : String) : Option Batch :=
  batches.find? (fun b => b.product == pid && b.batchNumber == bn)

/-- Persisting a modified batch document: replace the stored document with
the same `(product, batchNumber)` key. -/
def saveBatchList (batches : List Batch) (b : Batch) : List Batch :=
  batches.map (fun x => if x.product = b.product ∧ x.batchNumber = b.batchNumber then b else x)

/-- Persisting a modified product document: replace the stored document with
the same id. -/
def saveProductList (products : List Product) (p : Product) : List Product :=
  products.map (fun x => if x.id = p.id then p else x)

/-- Sort key comparison used by
`.sort({ receivedDate: 1, manufacturingDate: 1, createdAt: 1 })`:
lexicographic on `(receivedDate, manufacturingDate, createdAt)`. -/
def batchLE (a b : Batch) : Bool :=
  decide (a.receivedDate < b.receivedDate) ||
    (a.receivedDate == b.receivedDate &&
      (decide (a.manufacturingDate < b.manufacturingDate) ||
        (a.manufacturingDate == b.manufacturingDate && decide (a.createdAt ≤ b.createdAt))))

/-- Stable insertion into a list sorted by `batchLE`: the new element goes in
front of the first stored element it is `batchLE`-below-or-equal to, so
earlier-inserted equal keys stay first. -/
def insertBatch (b : Batch) : List Batch → List Batch
  | [] => [b]
  | x :: xs => if batchLE b x then b :: x :: xs else x :: insertBatch b xs

/-- Stable sort by `(receivedDate, manufacturingDate, createdAt)` ascending. -/
def sortBatches : List Batch → List Batch
  | [] => []
  | x :: xs => insertBatch x (sortBatches xs)

/-- The batch list the FIFO path fetches:
`ProductBatch.find({ product, quantity: { $gt: 0 } }).sort(...)`. -/
def eligibleBatches (batches : List Batch) (pid : Nat) : List Batch :=
  sortBatches (batches.filter (fun b => b.product == pid && decide (0 < b.quantity)))

/-- Total quantity held by a list of batches (the amount FIFO allocation can
draw from when applied to `eligibleBatches`). -/
def sumQuantity (batches : List Batch) : ℚ :=
  (batches.map (fun b => b.quantity)).sum

/-- The FIFO loop of createBill: walk the ordered batches; stop when nothing
remains; take `min(remaining, batch.quantity)` from each batch, emitting one
line item priced at `roundToTwo(batch.unitCost)` and a modified batch copy to
save.  Returns the emitted items, the batch copies to save, and the quantity
still remaining after the walk. -/
def fifoWalk (pid : Nat) (pname : String) : ℚ → List Batch → List CtrlItem × List Batch × ℚ
  | remaining, [] => ([], [], remaining)
  | remaining, b :: bs =>
    if remaining ≤ 0 then ([], [], remaining)
    else
      let take := min remaining b.quantity
      if take ≤ 0 then fifoWalk pid pname remaining bs
      else
        let price := roundToTwo b.unitCost
        let total := roundToTwo (price * take)
        let item : CtrlItem :=
          { productId := pid, batchNumber := some b.batchNumber, name := pname
            quantity := take, price := price, total := total }
        let rest := fifoWalk pid pname (remaining - take) bs
        (item :: rest.1, { b with quantity := b.quantity - take } :: rest.2.1, rest.2.2)

/-- Message prefix `Item ${index + 1}: ` used by the controller's errors. -/
def itemLabel (index : Nat) : String := "Item " ++ toString (index + 1) ++ ": "

/-- Processing of one requested line item of createBill (billController.js
lines 164–239): validate the quantity, resolve the product, fail fast when
the cached product quantity is below the request, then either allocate
entirely from a pinned batch or run the FIFO walk over the eligible batches;
on success save the modified batch copies and the product. -/
def processItem (batches : List Batch) (products : List Product) (index : Nat)
    (reqItem : ReqItem) : Except HError (List CtrlItem × List Batch × List Product) :=
  let requestedQty := reqItem.quantity
  if requestedQty ≤ 0 then
    .error (httpError 400 (itemLabel index ++ "Quantity must be greater than 0."))
  else
    match findProduct products reqItem.productId with
    | none => .error (httpError 400 (itemLabel index ++ "Invalid product selected."))
    | some product =>
      if product.quantity < requestedQty then
        .error (httpError 400 (itemLabel index ++ "Only so many units available for '"
          ++ product.name ++ "'."))
      else
        match reqItem.batchNumber with
        | some bn =>
          match findBatch batches reqItem.productId bn with
          | none => .error (httpError 400 (itemLabel index ++ "Batch '" ++ bn
              ++ "' not found for '" ++ product.name ++ "'."))
          | some batch =>
            if batch.quantity < requestedQty then
              .error (httpError 400 (itemLabel index ++ "Only so many units available in batch '"
                ++ bn ++ "' for '" ++ product.name ++ "'."))
            else
              let price := roundToTwo batch.unitCost
              let total := roundToTwo (price * requestedQty)
              let item : CtrlItem :=
                { productId := product.id, batchNumber := some bn, name := product.name
                  quantity := requestedQty, price := price, total := total }
              let batches1 := saveBatchList batches { batch with quantity := batch.quantity - requestedQty }
              let products1 := saveProductList products { product with quantity := product.quantity - requestedQty }
              .ok ([item], batches1, products1)
        | none =>
          let walk := fifoWalk product.id product.name requestedQty (eligibleBatches batches product.id)
          if 0 < walk.2.2 then
            .error (httpError 400 (itemLabel index ++ "Insufficient batch stock for '"
              ++ product.name ++ "'."))
          else
            let batches1 := walk.2.1.foldl saveBatchList batches
            let taken := (walk.1.map (fun it => it.quantity)).sum
            let products1 := saveProductList products { product with quantity := product.quantity - taken }
            .ok (walk.1, batches1, products1)

/-- The per-item loop of createBill.  Each successfully processed item's
saves are already persisted when the next item is processed, so a failure on
a later item leaves the earlier items' deductions in the store: the error
value carries the store state at throw time. -/
def processItems (batches : List Batch) (products : List Product) (index : Nat) :
    List ReqItem → Except (HError × List Batch × List Product) (List CtrlItem × List Batch × List Product)
  | [] => .ok ([], batches, products)
  | r :: rest =>
    match processItem batches products index r with
    | .error e => .error (e, batches, products)
    | .ok (items1, batches1, products1) =>
      match processItems batches1 products1 (index + 1) rest with
      | .error e => .error e
      | .ok (items2, batches2, products2) => .ok (items1 ++ items2, batches2, products2)

/-- Bill creation (billController.js `createBill`): validate the customer,
require a non-empty item list, allocate every line item, compute the
financials, persist the bill (its items passing through the `itemSchema`
projection), and increment the customer's outstanding balance by the due
amount when the payment method is `"credit"` or the status is not `"paid"`.
The error value carries the store at throw time. -/
def createBill (store : Store) (payload : CreateBillPayload) :
    Except (HError × Store) (PersistedBill × Store) :=
  match findCustomer store.customers payload.customerId with
  | none => .error (httpError 400 "Invalid customer ID.", store)
  | some customer =>
    if payload.items = [] then
      .error (httpError 400 "Bill must contain at least one item.", store)
    else
      match processItems store.batches store.products 0 payload.items with
      | .error (e, batches1, products1) =>
        .error (e, { store with batches := batches1, products := products1 })
      | .ok (ctrlItems, batches1, products1) =>
        let financials := calculateFinancials
          { items := ctrlItems.map (fun it => { total := it.total })
            discountPercent := payload.discountPercent
            taxPercent := payload.taxPercent
            paidAmount := payload.paidAmount
            paymentStatus := payload.paymentStatus }
        let bill : PersistedBill :=
          { id := store.bills.length
            customerId := customer.id
            customerName := customer.name
            customerEmail := customer.email
            customerPhone := customer.phone
            items := ctrlItems.map persistItem
            subtotal := financials.subtotal
            taxAmount := financials.taxAmount
            discount := financials.discountAmount
            totalAmount := financials.totalAmount
            paidAmount := financials.paidAmount
            dueAmount := financials.dueAmount
            paymentStatus := financials.paymentStatus
            paymentMethod := normalizePaymentMethod payload.paymentMethod }
        let customers1 :=
          if bill.paymentMethod = "credit" ∨ bill.paymentStatus ≠ "paid" then
            store.customers.map (fun c =>
              if c.id = bill.customerId then
                { c with outstandingBalance := c.outstandingBalance + bill.dueAmount }
              else c)
          else store.customers
        .ok (bill, { store with
          batches := batches1
          products := products1
          customers := customers1
          bills := store.bills ++ [bill] })

/-- Requested line item of a bill-update payload (`updateBill` reads
`productId`, `name`, `quantity`, `price`). -/
structure UpdateItem where
  productId : Nat
  name : String
  quantity : ℚ
  price : ℚ
deriving DecidableEq

/-- Bill-update request body.  Optional fields fall back through `??` to the
stored bill's values (or to `undefined`, coerced to 0, for the percent
fields, which the bill schema does not persist). -/
structure UpdateBillPayload where
  items : List UpdateItem
  discountPercent : Option ℚ
  taxPercent : Option ℚ
  paidAmount : Option ℚ
  paymentStatus : Option String
  paymentMethod : Option String
deriving DecidableEq

/-- One `applyAdjustment(productId, delta)` step of updateBill: add `delta`
to the entry for `productId` in the insertion-ordered adjustment map. -/
def applyAdjustment (m : List (Nat × ℚ)) (pid : Nat) (delta : ℚ) : List (Nat × ℚ) :=
  match m with
  | [] => [(pid, delta)]
  | (k, v) :: rest =>
    if k = pid then (k, v + delta) :: rest else (k, v) :: applyAdjustment rest pid delta

/-- The loop over the payload's items in updateBill: validate quantity and
price, round the price, compute the line total, subtract the quantity from
the adjustment map, and collect the new controller item (no batch number). -/
def processUpdateItems (m : List (Nat × ℚ)) (index : Nat) :
    List UpdateItem → Except HError (List CtrlItem × List (Nat × ℚ))
  | [] => .ok ([], m)
  | it :: rest =>
    if it.quantity ≤ 0 then
      .error (httpError 400 (itemLabel index ++ "Quantity must be greater than 0."))
    else
      let price := roundToTwo it.price
      if price < 0 then
        .error (httpError 400 (itemLabel index ++ "Price cannot be negative."))
      else
        let total := roundToTwo (price * it.quantity)
        let m1 := applyAdjustment m it.productId (-it.quantity)
        match processUpdateItems m1 (index + 1) rest with
        | .error e => .error e
        | .ok (items2, m2) =>
          .ok ({ productId := it.productId, batchNumber := none, name := it.name
                 quantity := it.quantity, price := price, total := total } :: items2, m2)

/-- The loop over the adjustment-map entries in updateBill: entries with a
zero delta are skipped; otherwise the product is loaded, rejected if the new
quantity would be negative, and saved with the adjusted quantity.  Each save
is persisted immediately, so the error value carries the products saved so
far. -/
def applyProductAdjustments (products : List Product) :
    List (Nat × ℚ) → Except (HError × List Product) (List Product)
  | [] => .ok products
  | (pid, delta) :: rest =>
    if delta = 0 then applyProductAdjustments products rest
    else
      match findProduct products pid with
      | none => .error (httpError 400 "One or more referenced products no longer exist.", products)
      | some product =>
        let newQuantity := product.quantity + delta
        if newQuantity < 0 then
          .error (httpError 400 ("Insufficient stock for product '" ++ product.name ++ "'."),
            products)
        else
          applyProductAdjustments (saveProductList products { product with quantity := newQuantity }) rest

/-- Bill update (billController.js `updateBill`): find the bill and its
customer, require a non-empty item list, build the per-product adjustment map
(original quantities added, new quantities subtracted), apply the net deltas
to the cached product quantities only (batches are never touched), recompute
the financials from the new items, replace the bill's fields, and apply the
outstanding-balance delta `roundToTwo(-oldDueAmount) + newDueAmount` to the
customer.  The stored bill has no `discountPercent`/`taxPercent` paths, so an
absent payload percent falls back to `undefined`, which the calculator
coerces to 0. -/
def updateBill (store : Store) (billId : Nat) (payload : UpdateBillPayload) :
    Except (HError × Store) (PersistedBill × Store) :=
  match store.bills.find? (fun b => b.id == billId) with
  | none => .error (httpError 404 "Bill not found", store)
  | some existingBill =>
    match findCustomer store.customers existingBill.customerId with
    | none => .error (httpError 400 "Associated customer no longer exists.", store)
    | some customer =>
      if payload.items = [] then
        .error (httpError 400 "Bill must contain at least one item.", store)
      else
        let m0 := existingBill.items.foldl
          (fun m item => applyAdjustment m item.productId item.quantity) []
        match processUpdateItems m0 0 payload.items with
        | .error e => .error (e, store)
        | .ok (items, m1) =>
          match applyProductAdjustments store.products m1 with
          | .error (e, products1) => .error (e, { store with products := products1 })
          | .ok products1 =>
            let financials := calculateFinancials
              { items := items.map (fun it => { total := it.total })
                discountPercent := payload.discountPercent.getD 0
                taxPercent := payload.taxPercent.getD 0
                paidAmount := payload.paidAmount.getD existingBill.paidAmount
                paymentStatus := payload.paymentStatus.getD existingBill.paymentStatus }
            let outstandingDelta := roundToTwo (existingBill.dueAmount * (-1))
            let newOutstanding := financials.dueAmount
            let updatedBill : PersistedBill :=
              { existingBill with
                items := items.map persistItem
                subtotal := financials.subtotal
                taxAmount := financials.taxAmount
                discount := financials.discountAmount
                totalAmount := financials.totalAmount
                paidAmount := financials.paidAmount
                dueAmount := financials.dueAmount
                paymentStatus := financials.paymentStatus
                paymentMethod := normalizePaymentMethod
                  (payload.paymentMethod.getD existingBill.paymentMethod) }
            let bills1 := store.bills.map (fun b => if b.id = billId then updatedBill else b)
            let customers1 := store.customers.map (fun c =>
              if c.id = customer.id then
                { c with outstandingBalance := c.outstandingBalance + (outstandingDelta + newOutstanding) }
              else c)
            .ok (updatedBill, { store with
              products := products1
              customers := customers1
              bills := bills1 })

/-- Stock notification document (models/Notification.js). -/
structure Notification where
  message : String
  productId : Nat
  type : String
  isRead : Bool
  createdAt : Int
deriving DecidableEq

/-- Reorder-level resolution (stockNotifications.js `getReorderLevel`):
default 10 when the product's `reorderLevel` is unset or not a positive
number. -/
def getReorderLevel (product : Product) : ℚ :=
  match product.reorderLevel with
  | none => 10
  | some value => if value ≤ 0 then 10 else value

/-- Upsert of an unread notification (stockNotifications.js
`upsertNotification` via `findOneAndUpdate` with `upsert: true`): the first
document matching `(productId, type, isRead: false)` is refreshed in place;
when none matches, a new document is inserted. -/
def upsertNotification (now : Int) (ns : List Notification) (pid : Nat) (ty msg : String) :
    List Notification :=
  match ns with
  | [] => [{ message := msg, productId := pid, type := ty, isRead := false, createdAt := now }]
  | n :: rest =>
    if n.productId = pid ∧ n.type = ty ∧ n.isRead = false then
      { message := msg, productId := pid, type := ty, isRead := false, createdAt := now } :: rest
    else n :: upsertNotification now rest pid ty msg

/-- Deletion of unread notifications of the given types for a product
(stockNotifications.js `clearNotifications` via `deleteMany`). -/
def clearNotifications (ns : List Notification) (pid : Nat) (types : List String) :
    List Notification :=
  ns.filter (fun n => !(n.productId == pid && types.contains n.type && n.isRead == false))

/-- The stock notifier (stockNotifications.js `handleStockNotifications`):
quantity 0 upserts an unread out-of-stock notification and clears unread
low-stock ones; a positive quantity at or below the reorder level upserts an
unread low-stock notification and clears out-of-stock ones; otherwise both
types are cleared. -/
def handleStockNotifications (now : Int) (ns : List Notification) (product : Product)
    (newQuantity : ℚ) : List Notification :=
  let reorderLevel := getReorderLevel product
  if newQuantity = 0 then
    clearNotifications
      (upsertNotification now ns product.id "out-of-stock" (product.name ++ " is out of stock"))
      product.id ["low-stock"]
  else if newQuantity ≤ reorderLevel then
    clearNotifications
      (upsertNotification now ns product.id "low-stock"
        (product.name ++ " has reached its reorder level"))
      product.id ["out-of-stock"]
  else
    clearNotifications ns product.id ["low-stock", "out-of-stock"]

/-- Number of unread notifications of a given type for a product. -/
def unreadCount (ns : List Notification) (pid : Nat) (ty : String) : Nat :=
  (ns.filter (fun n => n.productId == pid && n.type == ty && n.isRead == false)).length

/-- A rational is a whole number of cents (a value `roundToTwo` can return). -/
def IsCent (q : ℚ) : Prop := ∃ k : ℤ, q = (k : ℚ) / 100

/-- Concrete calculator input used by the testable properties: items totaling
1000, discount 10%, tax 18%, paid amount 500, and a chosen payment status. -/
def finSample (status : String) : FinInput :=
  { items := [{ total := 1000 }]
    discountPercent := 10
    taxPercent := 18
    paidAmount := 500
    paymentStatus := status }

/-- Concrete customer used by the testable properties. -/
def sampleCustomer : Customer :=
  { id := 1
    name := "Asha"
    email := "asha@example.com"
    phone := "555"
    outstandingBalance := 0 }

/-- Concrete product for the FIFO scenario: cached quantity 20 (the sum of
its two batches). -/
def fifoProduct : Product :=
  { id := 1
    name := "Widget"
    price := 150
    quantity := 20
    reorderLevel := some 10 }

/-- Batch B1: quantity 10, unit cost 100, received day 1. -/
def batchB1 : Batch :=
  { product := 1
    batchNumber := "B1"
    unitCost := 100
    quantity := 10
    receivedDate := 1
    manufacturingDate := 0
    createdAt := 0 }

/-- Batch B2: quantity 10, unit cost 120, received day 2. -/
def batchB2 : Batch :=
  { product := 1
    batchNumber := "B2"
    unitCost := 120
    quantity := 10
    receivedDate := 2
    manufacturingDate := 0
    createdAt := 1 }

/-- Store of the FIFO scenario from the testable properties. -/
def fifoStore : Store :=
  { products := [fifoProduct]
    batches := [batchB1, batchB2]
    customers := [sampleCustomer]
    bills := [] }

/-- Bill-creation payload selling `qty` units of the FIFO product with no
pinned batch, no discount or tax, nothing paid. -/
def fifoPayload (qty : ℚ) : CreateBillPayload :=
  { customerId := 1
    items := [{ productId := 1, quantity := qty, batchNumber := none }]
    discountPercent := 0
    taxPercent := 0
    paidAmount := 0
    paymentStatus := "pending"
    paymentMethod := "cash" }

/-- Two-line payload: the first line consumes 15 units, the second then
fails for lack of stock. -/
def fifoPayload2 : CreateBillPayload :=
  { customerId := 1
    items := [{ productId := 1, quantity := 15, batchNumber := none },
              { productId := 1, quantity := 10, batchNumber := none }]
    discountPercent := 0
    taxPercent := 0
    paidAmount := 0
    paymentStatus := "pending"
    paymentMethod := "cash" }

/-- The FIFO product with a stale cached quantity of 0, although its batches
still hold 20 units. -/
def staleProduct : Product :=
  { id := 1
    name := "Widget"
    price := 150
    quantity := 0
    reorderLevel := some 10 }

/-- Store with a stale cached product quantity (0) but 20 units in batches. -/
def staleStore : Store :=
  { products := [staleProduct]
    batches := [batchB1, batchB2]
    customers := [sampleCustomer]
    bills := [] }

/-- The bill expected from selling 15 units in the FIFO scenario. -/
def fifoExpectedBill : PersistedBill :=
  { id := 0
    customerId := 1
    customerName := "Asha"
    customerEmail := "asha@example.com"
    customerPhone := "555"
    items := [{ productId := 1, name := "Widget", quantity := 10, price := 100, total := 1000 },
              { productId := 1, name := "Widget", quantity := 5, price := 120, total := 600 }]
    subtotal := 1600
    taxAmount := 0
    discount := 0
    totalAmount := 1600
    paidAmount := 0
    dueAmount := 1600
    paymentStatus := "pending"
    paymentMethod := "cash" }

/-- The store expected after selling 15 units in the FIFO scenario. -/
def fifoExpectedStore : Store :=
  { products := [{ fifoProduct with quantity := 5 }]
    batches := [{ batchB1 with quantity := 0 }, { batchB2 with quantity := 5 }]
    customers := [{ sampleCustomer with outstandingBalance := 1600 }]
    bills := [fifoExpectedBill] }

/-- The store expected after line 1 of the two-line payload has been
persisted and line 2 has failed: B1 emptied, B2 at 5, product cached at 5. -/
def fifoPartialStore : Store :=
  { products := [{ fifoProduct with quantity := 5 }]
    batches := [{ batchB1 with quantity := 0 }, { batchB2 with quantity := 5 }]
    customers := [sampleCustomer]
    bills := [] }

/-- HTTP status of the outcome: the thrown error's status, 0 on success. -/
def resultStatus : Except (HError × Store) (PersistedBill × Store) → Nat
  | .error (e, _) => e.status
  | .ok _ => 0

/-- The persisted store after the operation, from either outcome. -/
def resultStore : Except (HError × Store) (PersistedBill × Store) → Store
  | .error (_, s) => s
  | .ok (_, s) => s

/-- First-match lookup in the adjustment map, 0 when the key is absent
(mirrors `adjustmentMap.get(key) || 0`). -/
def adjLookup (m : List (Nat × ℚ)) (k : Nat) : ℚ :=
  match m with
  | [] => 0
  | (k1, v) :: rest => if k1 = k then v else adjLookup rest k

/-- The update-payload item corresponding to a stored bill line item with
the same product, name, quantity and price. -/
def toUpdateItem (it : BillItem) : UpdateItem :=
  { productId := it.productId
    name := it.name
    quantity := it.quantity
    price := it.price }

/-- Concrete bill for the edit-reconciliation property: one line item of 2
units at price 10, no discount or tax, nothing paid, due 20. -/
def c7Bill : PersistedBill :=
  { id := 0
    customerId := 1
    customerName := "Asha"
    customerEmail := "asha@example.com"
    customerPhone := "555"
    items := [{ productId := 1, name := "Widget", quantity := 2, price := 10, total := 20 }]
    subtotal := 20
    taxAmount := 0
    discount := 0
    totalAmount := 20
    paidAmount := 0
    dueAmount := 20
    paymentStatus := "pending"
    paymentMethod := "cash" }

/-- Store holding the concrete bill for the edit-reconciliation property. -/
def c7Store : Store :=
  { products := [fifoProduct]
    batches := [batchB1, batchB2]
    customers := [sampleCustomer]
    bills := [c7Bill] }

/-- Update payload carrying exactly the items and parameters the concrete
bill already has. -/
def c7Payload : UpdateBillPayload :=
  { items := [{ productId := 1, name := "Widget", quantity := 2, price := 10 }]
    discountPercent := some 0
    taxPercent := some 0
    paidAmount := some 0
    paymentStatus := some "pending"
    paymentMethod := some "cash" }

/-! ## Helper lemmas -/

theorem isCent_roundToTwo (q : ℚ) : IsCent (roundToTwo q) :=
  ⟨round (q * 100), rfl⟩

theorem roundToTwo_of_isCent {q : ℚ} (h : IsCent q) : roundToTwo q = q := by
  obtain ⟨k, rfl⟩ := h
  rw [roundToTwo, div_mul_cancel₀ _ (by norm_num : (100 : ℚ) ≠ 0), round_intCast]

theorem IsCent.zero : IsCent 0 :=
  ⟨0, by norm_num⟩

theorem IsCent.add {a b : ℚ} (ha : IsCent a) (hb : IsCent b) : IsCent (a + b) := by
  obtain ⟨j, rfl⟩ := ha
  obtain ⟨k, rfl⟩ := hb
  exact ⟨j + k, by push_cast; ring⟩

theorem IsCent.neg {a : ℚ} (ha : IsCent a) : IsCent (-a) := by
  obtain ⟨j, rfl⟩ := ha
  exact ⟨-j, by push_cast; ring⟩

theorem IsCent.sub {a b : ℚ} (ha : IsCent a) (hb : IsCent b) : IsCent (a - b) := by
  rw [sub_eq_add_neg]
  exact ha.add hb.neg

theorem IsCent.max {a b : ℚ} (ha : IsCent a) (hb : IsCent b) : IsCent (max a b) := by
  rcases le_total a b with h | h
  · rw [max_eq_right h]; exact hb
  · rw [max_eq_left h]; exact ha

theorem roundToTwo_mono {a b : ℚ} (h : a ≤ b) : roundToTwo a ≤ roundToTwo b := by
  have h1 : round (a * 100) ≤ round (b * 100) := by
    rw [round_eq, round_eq]
    exact Int.floor_mono (by linarith)
  rw [roundToTwo, roundToTwo]
  exact (div_le_div_iff_of_pos_right (by norm_num : (0 : ℚ) < 100)).mpr (by exact_mod_cast h1)

theorem roundToTwo_zero : roundToTwo 0 = 0 := by
  rw [roundToTwo]
  norm_num

theorem roundToTwo_nonneg {q : ℚ} (h : 0 ≤ q) : 0 ≤ roundToTwo q := by
  calc (0 : ℚ) = roundToTwo 0 := roundToTwo_zero.symm
    _ ≤ roundToTwo q := roundToTwo_mono h

theorem foldl_add_roundToTwo_nonneg :
    ∀ (items : List FinItem), (∀ it ∈ items, 0 ≤ it.total) →
      ∀ init : ℚ, 0 ≤ init →
        0 ≤ items.foldl (fun sum item => sum + roundToTwo item.total) init
  | [], _, _, hi => by simpa using hi
  | it :: rest, h, init, hi => by
    simp only [List.foldl_cons]
    exact foldl_add_roundToTwo_nonneg rest (fun x hx => h x (List.mem_cons_of_mem _ hx)) _
      (add_nonneg hi (roundToTwo_nonneg (h it (List.mem_cons_self _ _))))

theorem subtotalOf_nonneg (items : List FinItem) (h : ∀ it ∈ items, 0 ≤ it.total) :
    0 ≤ subtotalOf items :=
  roundToTwo_nonneg (foldl_add_roundToTwo_nonneg items h 0 le_rfl)

theorem clamp_nonneg (v : ℚ) : 0 ≤ clamp v 0 100 :=
  le_min (le_max_right v 0) (by norm_num)

theorem clamp_le (v : ℚ) : clamp v 0 100 ≤ 100 :=
  min_le_right _ _

theorem discountAmountOf_nonneg (items : List FinItem) (dp : ℚ)
    (h : 0 ≤ subtotalOf items) : 0 ≤ discountAmountOf items dp := by
  apply roundToTwo_nonneg
  have := clamp_nonneg dp
  positivity

theorem discountAmountOf_le_subtotalOf (items : List FinItem) (dp : ℚ)
    (h : 0 ≤ subtotalOf items) : discountAmountOf items dp ≤ subtotalOf items := by
  have hc1 : clamp dp 0 100 ≤ 100 := clamp_le dp
  have hc0 : 0 ≤ clamp dp 0 100 := clamp_nonneg dp
  have hmul : subtotalOf items * clamp dp 0 100 / 100 ≤ subtotalOf items := by
    rw [div_le_iff₀ (by norm_num : (0 : ℚ) < 100)]
    nlinarith
  calc discountAmountOf items dp
      ≤ roundToTwo (subtotalOf items) := roundToTwo_mono hmul
    _ = subtotalOf items := roundToTwo_of_isCent (isCent_roundToTwo _)

theorem taxableBaseOf_eq (items : List FinItem) (dp : ℚ) (h : 0 ≤ subtotalOf items) :
    taxableBaseOf items dp = subtotalOf items - discountAmountOf items dp := by
  rw [taxableBaseOf,
    max_eq_left (by linarith [discountAmountOf_le_subtotalOf items dp h])]
  exact roundToTwo_of_isCent ((isCent_roundToTwo _).sub (isCent_roundToTwo _))

theorem totalAmountOf_eq (items : List FinItem) (dp tp : ℚ) (h : 0 ≤ subtotalOf items) :
    totalAmountOf items dp tp
      = subtotalOf items - discountAmountOf items dp + taxAmountOf items dp tp := by
  have h1 : IsCent (taxableBaseOf items dp) := isCent_roundToTwo _
  have h2 : IsCent (taxAmountOf items dp tp) := isCent_roundToTwo _
  rw [totalAmountOf, roundToTwo_of_isCent (h1.add h2), taxableBaseOf_eq items dp h]

theorem subtotalOf_single_1000 : subtotalOf [{ total := 1000 }] = 1000 := by
  norm_num [subtotalOf, roundToTwo, round_eq]

theorem discountAmountOf_1000_10 : discountAmountOf [{ total := 1000 }] 10 = 100 := by
  norm_num [discountAmountOf, subtotalOf_single_1000, clamp, roundToTwo, round_eq]

theorem taxableBaseOf_1000_10 : taxableBaseOf [{ total := 1000 }] 10 = 900 := by
  norm_num [taxableBaseOf, subtotalOf_single_1000, discountAmountOf_1000_10, roundToTwo, round_eq]

theorem taxAmountOf_1000_10_18 : taxAmountOf [{ total := 1000 }] 10 18 = 162 := by
  norm_num [taxAmountOf, taxableBaseOf_1000_10, clamp, roundToTwo, round_eq]

theorem totalAmountOf_1000_10_18 : totalAmountOf [{ total := 1000 }] 10 18 = 1062 := by
  norm_num [totalAmountOf, taxableBaseOf_1000_10, taxAmountOf_1000_10_18, roundToTwo, round_eq]


theorem sne_pending_paid : ("pending" : String) ≠ "paid" := by decide

theorem sne_partial_paid : ("partial" : String) ≠ "paid" := by decide

theorem sne_b2_b1 : ("B2" : String) ≠ "B1" := by decide

theorem sne_b1_b2 : ("B1" : String) ≠ "B2" := by decide

theorem sne_cash_bank : ("cash" : String) ≠ "bank" := by decide

theorem sne_cash_credit : ("cash" : String) ≠ "credit" := by decide


theorem sumQuantity_nil : sumQuantity [] = 0 := rfl

theorem sumQuantity_cons (b : Batch) (l : List Batch) :
    sumQuantity (b :: l) = b.quantity + sumQuantity l := by
  simp [sumQuantity]

theorem sumQuantity_insertBatch (b : Batch) (l : List Batch) :
    sumQuantity (insertBatch b l) = b.quantity + sumQuantity l := by
  induction l with
  | nil => simp [insertBatch, sumQuantity]
  | cons x xs ih =>
    rw [insertBatch]
    split_ifs
    · rfl
    · rw [sumQuantity_cons, ih, sumQuantity_cons]
      ring

theorem sumQuantity_sortBatches (l : List Batch) :
    sumQuantity (sortBatches l) = sumQuantity l := by
  induction l with
  | nil => rfl
  | cons x xs ih =>
    rw [sortBatches, sumQuantity_insertBatch, ih, sumQuantity_cons]

theorem mem_insertBatch {x b : Batch} {l : List Batch} :
    x ∈ insertBatch b l ↔ x = b ∨ x ∈ l := by
  induction l with
  | nil => simp [insertBatch]
  | cons y ys ih =>
    rw [insertBatch]
    split_ifs
    · simp only [List.mem_cons]
    · simp only [List.mem_cons, ih]
      tauto

theorem mem_sortBatches {x : Batch} {l : List Batch} :
    x ∈ sortBatches l ↔ x ∈ l := by
  induction l with
  | nil => simp [sortBatches]
  | cons y ys ih =>
    rw [sortBatches, mem_insertBatch, ih]
    simp

theorem sumQuantity_nonneg {l : List Batch} (h : ∀ x ∈ l, 0 ≤ x.quantity) :
    0 ≤ sumQuantity l := by
  induction l with
  | nil => simp [sumQuantity_nil]
  | cons x xs ih =>
    rw [sumQuantity_cons]
    exact add_nonneg (h x (List.mem_cons_self _ _))
      (ih fun y hy => h y (List.mem_cons_of_mem _ hy))

theorem quantity_le_sumQuantity {b : Batch} {l : List Batch}
    (h : ∀ x ∈ l, 0 ≤ x.quantity) (hb : b ∈ l) : b.quantity ≤ sumQuantity l := by
  induction l with
  | nil => cases hb
  | cons x xs ih =>
    rw [sumQuantity_cons]
    rcases List.mem_cons.mp hb with rfl | hmem
    · have : 0 ≤ sumQuantity xs :=
        sumQuantity_nonneg fun y hy => h y (List.mem_cons_of_mem _ hy)
      linarith
    · have h1 := ih (fun y hy => h y (List.mem_cons_of_mem _ hy)) hmem
      have h2 := h x (List.mem_cons_self _ _)
      linarith

theorem eligibleBatches_pos {batches : List Batch} {pid : Nat} {x : Batch}
    (hx : x ∈ eligibleBatches batches pid) : 0 < x.quantity := by
  rw [eligibleBatches, mem_sortBatches] at hx
  have hp := (List.mem_filter.mp hx).2
  simp only [Bool.and_eq_true, beq_iff_eq, decide_eq_true_eq] at hp
  exact hp.2

theorem mem_eligibleBatches {batches : List Batch} {pid : Nat} {x : Batch}
    (hprod : x.product = pid) (hq : 0 < x.quantity) (hmem : x ∈ batches) :
    x ∈ eligibleBatches batches pid := by
  rw [eligibleBatches, mem_sortBatches]
  exact List.mem_filter.mpr ⟨hmem, by simp [hprod, hq]⟩

theorem fifoWalk_remaining_lower (pid : Nat) (pname : String) :
    ∀ (r : ℚ) (bs : List Batch), (∀ x ∈ bs, 0 < x.quantity) →
      r - sumQuantity bs ≤ (fifoWalk pid pname r bs).2.2
  | r, [], _ => by simp [fifoWalk, sumQuantity_nil]
  | r, b :: bs, h => by
    have hpos : 0 < b.quantity := h b (List.mem_cons_self _ _)
    have hrest : ∀ x ∈ bs, 0 < x.quantity := fun x hx => h x (List.mem_cons_of_mem _ hx)
    have hsum : 0 ≤ sumQuantity bs := sumQuantity_nonneg fun x hx => le_of_lt (hrest x hx)
    rw [sumQuantity_cons]
    by_cases h1 : r ≤ 0
    · simp only [fifoWalk, if_pos h1]
      linarith
    · have htake : 0 < min r b.quantity := lt_min (not_le.mp h1) hpos
      simp only [fifoWalk, if_neg h1, if_neg (not_le.mpr htake)]
      have hrec := fifoWalk_remaining_lower pid pname (r - min r b.quantity) bs hrest
      have hmin : min r b.quantity ≤ b.quantity := min_le_right _ _
      linarith

theorem fifoWalk_remaining_le (pid : Nat) (pname : String) :
    ∀ (r : ℚ) (bs : List Batch), (∀ x ∈ bs, 0 < x.quantity) →
      (fifoWalk pid pname r bs).2.2 ≤ max (r - sumQuantity bs) 0
  | r, [], _ => by simp [fifoWalk, sumQuantity_nil]
  | r, b :: bs, h => by
    have hpos : 0 < b.quantity := h b (List.mem_cons_self _ _)
    have hrest : ∀ x ∈ bs, 0 < x.quantity := fun x hx => h x (List.mem_cons_of_mem _ hx)
    have hsum : 0 ≤ sumQuantity bs := sumQuantity_nonneg fun x hx => le_of_lt (hrest x hx)
    rw [sumQuantity_cons]
    by_cases h1 : r ≤ 0
    · simp only [fifoWalk, if_pos h1]
      exact le_max_of_le_right (by linarith)
    · have htake : 0 < min r b.quantity := lt_min (not_le.mp h1) hpos
      simp only [fifoWalk, if_neg h1, if_neg (not_le.mpr htake)]
      have hrec := fifoWalk_remaining_le pid pname (r - min r b.quantity) bs hrest
      have hub : max (r - min r b.quantity - sumQuantity bs) 0
          ≤ max (r - (b.quantity + sumQuantity bs)) 0 := by
        rcases le_total r b.quantity with hc | hc
        · rw [min_eq_left hc]
          apply max_le _ (le_max_right _ _)
          exact le_max_of_le_right (by linarith)
        · rw [min_eq_right hc]
          apply max_le _ (le_max_right _ _)
          exact le_max_of_le_left (by linarith)
      exact le_trans hrec hub


theorem unreadCount_eq_countP (ns : List Notification) (pid : Nat) (ty : String) :
    unreadCount ns pid ty
      = ns.countP (fun n => n.productId == pid && n.type == ty && n.isRead == false) :=
  (List.countP_eq_length_filter _ _).symm

theorem countPred_iff (n : Notification) (pid : Nat) (ty : String) :
    (n.productId == pid && n.type == ty && n.isRead == false) = true
      ↔ (n.productId = pid ∧ n.type = ty ∧ n.isRead = false) := by
  simp [and_assoc]

theorem unreadCount_cons (n : Notification) (rest : List Notification) (pid : Nat)
    (ty : String) :
    unreadCount (n :: rest) pid ty
      = (if n.productId = pid ∧ n.type = ty ∧ n.isRead = false then 1 else 0)
        + unreadCount rest pid ty := by
  rw [unreadCount_eq_countP, unreadCount_eq_countP, List.countP_cons]
  by_cases h : n.productId = pid ∧ n.type = ty ∧ n.isRead = false
  · rw [if_pos h, if_pos ((countPred_iff n pid ty).mpr h)]
    omega
  · rw [if_neg h, if_neg (fun hc => h ((countPred_iff n pid ty).mp hc))]
    omega

theorem unreadCount_clear_mem (ns : List Notification) (pid : Nat) (types : List String)
    (ty : String) (hty : types.contains ty = true) :
    unreadCount (clearNotifications ns pid types) pid ty = 0 := by
  rw [unreadCount_eq_countP, clearNotifications, List.countP_filter, List.countP_eq_zero]
  intro n _ hc
  simp only [Bool.and_eq_true, beq_iff_eq, Bool.not_eq_true] at hc
  obtain ⟨⟨⟨h1, h2⟩, h3⟩, h4⟩ := hc
  rw [h1, h2, h3, hty] at h4
  simp at h4

theorem unreadCount_clear_not_mem (ns : List Notification) (pid : Nat)
    (types : List String) (ty : String) (hty : types.contains ty = false) :
    unreadCount (clearNotifications ns pid types) pid ty = unreadCount ns pid ty := by
  rw [unreadCount_eq_countP, unreadCount_eq_countP, clearNotifications, List.countP_filter]
  apply List.countP_congr
  intro n _
  simp only [Bool.and_eq_true, beq_iff_eq, Bool.not_eq_true']
  constructor
  · rintro ⟨h, _⟩
    exact h
  · rintro ⟨⟨h1, h2⟩, h3⟩
    refine ⟨⟨⟨h1, h2⟩, h3⟩, ?_⟩
    rw [h2, hty, Bool.and_false, Bool.false_and]

theorem unreadCount_upsert (now : Int) (pid : Nat) (ty msg : String) :
    ∀ ns : List Notification, unreadCount ns pid ty ≤ 1 →
      unreadCount (upsertNotification now ns pid ty msg) pid ty = 1
  | [], _ => by
    rw [upsertNotification, unreadCount_cons, if_pos ⟨rfl, rfl, rfl⟩]
    rfl
  | n :: rest, h => by
    rw [upsertNotification]
    split_ifs with hmatch
    · rw [unreadCount_cons, if_pos ⟨rfl, rfl, rfl⟩]
      rw [unreadCount_cons, if_pos hmatch] at h
      omega
    · rw [unreadCount_cons, if_neg hmatch]
      rw [unreadCount_cons, if_neg hmatch] at h
      rw [unreadCount_upsert now pid ty msg rest (by omega)]

theorem unreadCount_upsert_other (now : Int) (pid : Nat) (ty msg ty2 : String)
    (hne : ty2 ≠ ty) :
    ∀ ns : List Notification,
      unreadCount (upsertNotification now ns pid ty msg) pid ty2 = unreadCount ns pid ty2
  | [] => by
    rw [upsertNotification, unreadCount_cons,
      if_neg (fun hc => hne (hc.2.1.symm))]
    rfl
  | n :: rest => by
    rw [upsertNotification]
    split_ifs with hmatch
    · rw [unreadCount_cons, if_neg (fun hc => hne hc.2.1.symm), unreadCount_cons,
        if_neg (fun hc => hne (by rw [← hc.2.1]; exact hmatch.2.1))]
    · rw [unreadCount_cons, unreadCount_cons,
        unreadCount_upsert_other now pid ty msg ty2 hne rest]

theorem getReorderLevel_pos (p : Product) : 0 < getReorderLevel p := by
  rw [getReorderLevel]
  cases p.reorderLevel with
  | none => norm_num
  | some v =>
    dsimp only
    split_ifs with h
    · norm_num
    · exact lt_of_not_le h


theorem adjLookup_applyAdjustment (m : List (Nat × ℚ)) (pid : Nat) (d : ℚ) (k : Nat) :
    adjLookup (applyAdjustment m pid d) k
      = adjLookup m k + (if pid = k then d else 0) := by
  induction m with
  | nil =>
    simp only [applyAdjustment, adjLookup]
    split_ifs <;> ring
  | cons e rest ih =>
    obtain ⟨k1, v⟩ := e
    rw [applyAdjustment]
    by_cases h1 : k1 = pid
    · rw [if_pos h1, adjLookup, adjLookup]
      by_cases h2 : k1 = k
      · rw [if_pos h2, if_pos h2, if_pos (h1 ▸ h2)]
      · rw [if_neg h2, if_neg h2, if_neg (fun hh => h2 (h1.trans hh))]
        ring
    · rw [if_neg h1, adjLookup, adjLookup]
      by_cases h2 : k1 = k
      · rw [if_pos h2, if_pos h2, if_neg (fun hh => h1 (h2.trans hh.symm))]
        ring
      · rw [if_neg h2, if_neg h2]
        exact ih

theorem mem_keys_applyAdjustment {m : List (Nat × ℚ)} {pid : Nat} {d : ℚ} {x : Nat}
    (hx : x ∈ (applyAdjustment m pid d).map Prod.fst) :
    x ∈ m.map Prod.fst ∨ x = pid := by
  induction m with
  | nil =>
    simp [applyAdjustment] at hx
    exact Or.inr hx
  | cons e rest ih =>
    obtain ⟨k1, v⟩ := e
    rw [applyAdjustment] at hx
    split_ifs at hx with h1
    · simp only [List.map_cons, List.mem_cons] at hx ⊢
      tauto
    · simp only [List.map_cons, List.mem_cons] at hx ⊢
      rcases hx with h | h
      · exact Or.inl (Or.inl h)
      · rcases ih h with h2 | h2
        · exact Or.inl (Or.inr h2)
        · exact Or.inr h2

theorem nodup_keys_applyAdjustment {m : List (Nat × ℚ)} {pid : Nat} {d : ℚ}
    (h : (m.map Prod.fst).Nodup) : ((applyAdjustment m pid d).map Prod.fst).Nodup := by
  induction m with
  | nil => simp [applyAdjustment]
  | cons e rest ih =>
    obtain ⟨k1, v⟩ := e
    rw [applyAdjustment]
    simp only [List.map_cons, List.nodup_cons] at h
    split_ifs with h1
    · simp only [List.map_cons, List.nodup_cons]
      exact h
    · simp only [List.map_cons, List.nodup_cons]
      refine ⟨fun hc => ?_, ih h.2⟩
      rcases mem_keys_applyAdjustment hc with h2 | h2
      · exact h.1 h2
      · exact h1 h2

theorem adjLookup_of_mem :
    ∀ {m : List (Nat × ℚ)}, (m.map Prod.fst).Nodup → ∀ e ∈ m, e.2 = adjLookup m e.1
  | [], _, e, he => absurd he (List.not_mem_nil e)
  | (k1, v) :: rest, h, e, he => by
    simp only [List.map_cons, List.nodup_cons] at h
    rcases List.mem_cons.mp he with rfl | hmem
    · rw [adjLookup, if_pos rfl]
    · rw [adjLookup]
      have hk : ¬(k1 = e.1) := by
        intro hh
        exact h.1 (hh ▸ List.mem_map_of_mem Prod.fst hmem)
      rw [if_neg hk]
      exact adjLookup_of_mem h.2 e hmem

theorem adjLookup_foldl {β : Type} (f : β → Nat) (g : β → ℚ) :
    ∀ (l : List β) (m : List (Nat × ℚ)) (k : Nat),
      adjLookup (l.foldl (fun mm b => applyAdjustment mm (f b) (g b)) m) k
        = adjLookup m k + ((l.filter (fun b => f b == k)).map g).sum
  | [], m, k => by simp
  | b :: rest, m, k => by
    rw [List.foldl_cons, adjLookup_foldl f g rest _ k, adjLookup_applyAdjustment]
    by_cases hk : f b = k
    · rw [List.filter_cons_of_pos (by simp [hk]), List.map_cons, List.sum_cons, if_pos hk]
      ring
    · rw [List.filter_cons_of_neg (by simp [hk]), if_neg hk]
      ring

theorem nodup_keys_foldl {β : Type} (f : β → Nat) (g : β → ℚ) :
    ∀ (l : List β) (m : List (Nat × ℚ)), (m.map Prod.fst).Nodup →
      ((l.foldl (fun mm b => applyAdjustment mm (f b) (g b)) m).map Prod.fst).Nodup
  | [], _, h => h
  | b :: rest, m, h => by
    rw [List.foldl_cons]
    exact nodup_keys_foldl f g rest _ (nodup_keys_applyAdjustment h)

theorem sum_filter_map_toUpdateItem (L : List BillItem) (k : Nat) :
    (((L.map toUpdateItem).filter (fun b => b.productId == k)).map
        (fun b : UpdateItem => -b.quantity)).sum
      = -((L.filter (fun it => it.productId == k)).map
          (fun it : BillItem => it.quantity)).sum := by
  induction L with
  | nil => simp
  | cons it rest ih =>
    rw [List.map_cons]
    by_cases hk : it.productId = k
    · rw [List.filter_cons_of_pos (by simp [toUpdateItem, hk]),
        List.filter_cons_of_pos (by simp [hk]), List.map_cons, List.map_cons,
        List.sum_cons, List.sum_cons, ih]
      show -(toUpdateItem it).quantity + _ = _
      rw [toUpdateItem]
      ring
    · rw [List.filter_cons_of_neg (by simp [toUpdateItem, hk]),
        List.filter_cons_of_neg (by simp [hk])]
      exact ih

theorem applyProductAdjustments_zero (products : List Product) :
    ∀ m : List (Nat × ℚ), (∀ e ∈ m, e.2 = 0) →
      applyProductAdjustments products m = .ok products
  | [], _ => rfl
  | (pid, d) :: rest, h => by
    rw [applyProductAdjustments, if_pos (h (pid, d) (List.mem_cons_self _ _))]
    exact applyProductAdjustments_zero products rest
      (fun e he => h e (List.mem_cons_of_mem _ he))

theorem processUpdateItems_ok :
    ∀ (items : List UpdateItem) (m : List (Nat × ℚ)) (idx : Nat),
      (∀ it ∈ items, 0 < it.quantity ∧ 0 ≤ it.price) →
      processUpdateItems m idx items
        = .ok (items.map (fun it => (⟨it.productId, none, it.name, it.quantity,
              roundToTwo it.price, roundToTwo (roundToTwo it.price * it.quantity)⟩ : CtrlItem)),
            items.foldl (fun mm it => applyAdjustment mm it.productId (-it.quantity)) m)
  | [], _, _, _ => rfl
  | it :: rest, m, idx, h => by
    have h1 := h it (List.mem_cons_self _ _)
    rw [processUpdateItems, if_neg (not_le.mpr h1.1),
      if_neg (not_lt.mpr (roundToTwo_nonneg h1.2))]
    dsimp only
    rw [processUpdateItems_ok rest _ (idx + 1)
      (fun x hx => h x (List.mem_cons_of_mem _ hx))]
    rfl

/-! ## Claim theorems -/

/-- C6: on any input whose line-item totals are all non-negative, the
financial calculator's output satisfies
`totalAmount = subtotal − discountAmount + taxAmount`,
`dueAmount = max(totalAmount − paidAmount, 0)`, `paidAmount ≤ totalAmount`,
and the returned payment status is never `"paid"` while `dueAmount > 0`. -/
theorem calculateFinancials_invariants (inp : FinInput)
    (h : ∀ it ∈ inp.items, 0 ≤ it.total) :
    (calculateFinancials inp).totalAmount
        = (calculateFinancials inp).subtotal - (calculateFinancials inp).discountAmount
          + (calculateFinancials inp).taxAmount ∧
    (calculateFinancials inp).dueAmount
        = max ((calculateFinancials inp).totalAmount - (calculateFinancials inp).paidAmount) 0 ∧
    (calculateFinancials inp).paidAmount ≤ (calculateFinancials inp).totalAmount ∧
    ¬((calculateFinancials inp).paymentStatus = "paid"
        ∧ 0 < (calculateFinancials inp).dueAmount) := by
  have hs : 0 ≤ subtotalOf inp.items := subtotalOf_nonneg _ h
  have hT : IsCent (totalAmountOf inp.items inp.discountPercent inp.taxPercent) :=
    isCent_roundToTwo _
  have hP0 : IsCent (roundToTwo inp.paidAmount) := isCent_roundToTwo _
  simp only [calculateFinancials]
  refine ⟨totalAmountOf_eq _ _ _ hs, ?_, ?_, ?_⟩
  · split_ifs
    all_goals first
      | exact roundToTwo_of_isCent ((hT.sub hT).max IsCent.zero)
      | exact roundToTwo_of_isCent ((hT.sub hP0).max IsCent.zero)
  · split_ifs
    all_goals first
      | exact le_rfl
      | exact le_of_not_lt (by assumption)
  · split_ifs
    all_goals first
      | (rintro ⟨hx, -⟩; exact absurd hx (by decide))
      | (rintro hx; exact absurd hx (by assumption))

/-- Witness for C6 at a concrete input. -/
theorem calculateFinancials_invariants_witness :
    (calculateFinancials (finSample "pending")).paidAmount
      ≤ (calculateFinancials (finSample "pending")).totalAmount :=
  (calculateFinancials_invariants _ (by intro it hit; simp [finSample] at hit; subst hit; norm_num)).2.2.1

/-- C5 counterexample: with items totaling 1000, discount 10%, tax 18%, paid
amount 500 and the caller-supplied status `"bogus"` — a status other than
`"paid"` — the calculator returns the status `"pending"`, not the caller's
status unchanged. -/
theorem calculateFinancials_unrecognized_status :
    (calculateFinancials (finSample "bogus")).paymentStatus = "pending" ∧
    (calculateFinancials (finSample "bogus")).paymentStatus ≠ "bogus" := by
  have hb : normalizePaymentStatus "bogus" = "pending" := by decide
  have hne : ("pending" : String) ≠ "paid" := by decide
  have hleft : (calculateFinancials (finSample "bogus")).paymentStatus = "pending" := by
    simp only [calculateFinancials, finSample, hb]
    norm_num [totalAmountOf_1000_10_18, roundToTwo, round_eq, hne]
  exact ⟨hleft, by rw [hleft]; decide⟩

/-- C5 as amended: items totaling 1000 with discount 10% and tax 18% yield
discountAmount 100, taxable base 900, taxAmount 162 and totalAmount 1062;
with paidAmount 500 and a caller-supplied status among the valid non-`"paid"`
statuses (`"pending"`, `"partial"`) the dueAmount is 562 and the status is
returned unchanged, while an unrecognized status is first normalized to
`"pending"`; and with requested status `"paid"`, paidAmount is forced to 1062
and dueAmount to 0 regardless of the smaller caller-supplied paidAmount. -/
theorem calculateFinancials_determinism :
    discountAmountOf [{ total := 1000 }] 10 = 100 ∧
    taxableBaseOf [{ total := 1000 }] 10 = 900 ∧
    taxAmountOf [{ total := 1000 }] 10 18 = 162 ∧
    totalAmountOf [{ total := 1000 }] 10 18 = 1062 ∧
    (calculateFinancials (finSample "pending")).dueAmount = 562 ∧
    (calculateFinancials (finSample "pending")).paymentStatus = "pending" ∧
    (calculateFinancials (finSample "partial")).dueAmount = 562 ∧
    (calculateFinancials (finSample "partial")).paymentStatus = "partial" ∧
    (calculateFinancials (finSample "bogus")).paymentStatus = "pending" ∧
    (calculateFinancials (finSample "paid")).paidAmount = 1062 ∧
    (calculateFinancials (finSample "paid")).dueAmount = 0 := by
  have hpend : normalizePaymentStatus "pending" = "pending" := by decide
  have hpart : normalizePaymentStatus "partial" = "partial" := by decide
  have hbog : normalizePaymentStatus "bogus" = "pending" := by decide
  have hpaid : normalizePaymentStatus "paid" = "paid" := by decide
  have hne1 : ("pending" : String) ≠ "paid" := by decide
  have hne2 : ("partial" : String) ≠ "paid" := by decide
  refine ⟨discountAmountOf_1000_10, taxableBaseOf_1000_10, taxAmountOf_1000_10_18,
    totalAmountOf_1000_10_18, ?_, ?_, ?_, ?_, ?_, ?_, ?_⟩
  all_goals
    simp only [calculateFinancials, finSample, hpend, hpart, hbog, hpaid]
  all_goals
    norm_num [totalAmountOf_1000_10_18, roundToTwo, round_eq, hne1, hne2]

/-- C1: in the FIFO scenario — batches B1(quantity 10, cost 100, received
day 1) and B2(quantity 10, cost 120, received day 2) — selling 15 units with
no pinned batch walks the eligible batches in ascending `(receivedDate,
manufacturingDate, createdAt)` order, taking `min(remaining, quantity)` from
each: the walk emits exactly the line items 10@100 from batch B1 and then
5@120 from batch B2, in that order, each carrying its batch's unit cost, and
the created bill persists those two line items and leaves B1 at quantity 0,
B2 at quantity 5 and the product's cached quantity at 5. -/
theorem createBill_fifo_allocation :
    fifoWalk 1 "Widget" 15 (eligibleBatches fifoStore.batches 1)
      = ([⟨1, some "B1", "Widget", 10, 100, 1000⟩, ⟨1, some "B2", "Widget", 5, 120, 600⟩],
         [{ batchB1 with quantity := 0 }, { batchB2 with quantity := 5 }], 0) ∧
    createBill fifoStore (fifoPayload 15) = .ok (fifoExpectedBill, fifoExpectedStore) := by
  constructor
  · norm_num [createBill, processItems, processItem, fifoWalk, eligibleBatches, sortBatches,
    insertBatch, batchLE, findCustomer, findProduct, findBatch, saveBatchList, saveProductList,
    calculateFinancials, subtotalOf, discountAmountOf, taxableBaseOf, taxAmountOf, totalAmountOf,
    clamp, roundToTwo, round_eq, normalizePaymentStatus, normalizePaymentMethod, persistItem,
    itemLabel, fifoStore, fifoPayload, fifoProduct, batchB1, batchB2, sampleCustomer,
    fifoExpectedBill, fifoExpectedStore, List.find?, List.filter, VALID_PAYMENT_STATUSES,
    VALID_PAYMENT_METHODS, sne_pending_paid, sne_partial_paid, sne_b2_b1, sne_b1_b2,
    sne_cash_bank, sne_cash_credit, Except.isOk, Except.toBool, httpError]
  · norm_num [createBill, processItems, processItem, fifoWalk, eligibleBatches, sortBatches,
    insertBatch, batchLE, findCustomer, findProduct, findBatch, saveBatchList, saveProductList,
    calculateFinancials, subtotalOf, discountAmountOf, taxableBaseOf, taxAmountOf, totalAmountOf,
    clamp, roundToTwo, round_eq, normalizePaymentStatus, normalizePaymentMethod, persistItem,
    itemLabel, fifoStore, fifoPayload, fifoProduct, batchB1, batchB2, sampleCustomer,
    fifoExpectedBill, fifoExpectedStore, List.find?, List.filter, VALID_PAYMENT_STATUSES,
    VALID_PAYMENT_METHODS, sne_pending_paid, sne_partial_paid, sne_b2_b1, sne_b1_b2,
    sne_cash_bank, sne_cash_credit, Except.isOk, Except.toBool, httpError]

/-- C2: a bill whose single line item requests more than the total quantity
held by the product's batches with quantity > 0 fails with an HTTP 400 error
and the persisted store — batches, products, customers and bills — is
exactly the initial one: allocation for the line item is all-or-nothing. -/
theorem createBill_allOrNothing (store : Store) (payload : CreateBillPayload) (req : ReqItem)
    (hitems : payload.items = [req])
    (hover : sumQuantity (eligibleBatches store.batches req.productId) < req.quantity) :
    (createBill store payload).isOk = false ∧
    resultStatus (createBill store payload) = 400 ∧
    resultStore (createBill store payload) = store := by
  have hposall : ∀ x ∈ eligibleBatches store.batches req.productId, 0 < x.quantity :=
    fun x hx => eligibleBatches_pos hx
  have hsum0 : 0 ≤ sumQuantity (eligibleBatches store.batches req.productId) :=
    sumQuantity_nonneg fun x hx => le_of_lt (hposall x hx)
  have hq : 0 < req.quantity := lt_of_le_of_lt hsum0 hover
  have hitem : ∃ e : HError,
      processItem store.batches store.products 0 req = .error e ∧ e.status = 400 := by
    simp only [processItem, if_neg (not_le.mpr hq)]
    cases hp : findProduct store.products req.productId with
    | none => exact ⟨_, rfl, rfl⟩
    | some product =>
      dsimp only
      by_cases hlt : product.quantity < req.quantity
      · rw [if_pos hlt]
        exact ⟨_, rfl, rfl⟩
      · rw [if_neg hlt]
        cases hbn : req.batchNumber with
        | some bn =>
          dsimp only
          cases hfb : findBatch store.batches req.productId bn with
          | none => exact ⟨_, rfl, rfl⟩
          | some batch =>
            dsimp only
            have hblt : batch.quantity < req.quantity := by
              by_cases hbq : 0 < batch.quantity
              · have hfb2 := List.find?_some hfb
                simp only [Bool.and_eq_true, beq_iff_eq] at hfb2
                have hmemb : batch ∈ store.batches := List.mem_of_find?_eq_some hfb
                have hin : batch ∈ eligibleBatches store.batches req.productId :=
                  mem_eligibleBatches hfb2.1 hbq hmemb
                have := quantity_le_sumQuantity (fun x hx => le_of_lt (hposall x hx)) hin
                linarith
              · linarith [not_lt.mp hbq]
            rw [if_pos hblt]
            exact ⟨_, rfl, rfl⟩
        | none =>
          dsimp only
          have hpid : product.id = req.productId := by simpa using List.find?_some hp
          have hlow := fifoWalk_remaining_lower product.id product.name req.quantity
            (eligibleBatches store.batches product.id) (fun x hx => eligibleBatches_pos hx)
          have hwalk : 0 < (fifoWalk product.id product.name req.quantity
              (eligibleBatches store.batches product.id)).2.2 := by
            rw [hpid] at hlow ⊢
            linarith
          rw [if_pos hwalk]
          exact ⟨_, rfl, rfl⟩
  rcases hitem with ⟨e, he, hs⟩
  cases hc : findCustomer store.customers payload.customerId with
  | none =>
    simp only [createBill, hc]
    exact ⟨rfl, rfl, rfl⟩
  | some customer =>
    have hni : ¬(payload.items = []) := by rw [hitems]; simp
    simp only [createBill, hc, if_neg hni, hitems, processItems, he]
    exact ⟨rfl, hs, rfl⟩

/-- Witness for C2: selling 25 units against batches holding 10 + 10 fails
with a 400 error and leaves the store untouched. -/
theorem createBill_allOrNothing_witness :
    (createBill fifoStore (fifoPayload 25)).isOk = false ∧
    resultStatus (createBill fifoStore (fifoPayload 25)) = 400 ∧
    resultStore (createBill fifoStore (fifoPayload 25)) = fifoStore :=
  createBill_allOrNothing fifoStore (fifoPayload 25) ⟨1, 25, none⟩ rfl
    (by norm_num [eligibleBatches, sortBatches, insertBatch, batchLE, sumQuantity,
      fifoStore, batchB1, batchB2, List.filter, sne_b2_b1, sne_b1_b2])

/-- C3 counterexample: on the two-line payload (15 units then 10 units of
the same product) bill creation fails, but the store recorded at throw time
retains line 1's deductions — B1 reduced to 0 and B2 to 5 — instead of the
original batches: nothing is rolled back. -/
theorem createBill_no_rollback :
    (createBill fifoStore fifoPayload2).isOk = false ∧
    (resultStore (createBill fifoStore fifoPayload2)).batches
        = [{ batchB1 with quantity := 0 }, { batchB2 with quantity := 5 }] ∧
    (resultStore (createBill fifoStore fifoPayload2)).batches ≠ fifoStore.batches := by
  refine ⟨?_, ?_, ?_⟩
  · norm_num [createBill, processItems, processItem, fifoWalk, eligibleBatches, sortBatches,
    insertBatch, batchLE, findCustomer, findProduct, findBatch, saveBatchList, saveProductList,
    calculateFinancials, subtotalOf, discountAmountOf, taxableBaseOf, taxAmountOf, totalAmountOf,
    clamp, roundToTwo, round_eq, normalizePaymentStatus, normalizePaymentMethod, persistItem,
    itemLabel, fifoStore, fifoPayload, fifoProduct, batchB1, batchB2, sampleCustomer,
    fifoExpectedBill, fifoExpectedStore, List.find?, List.filter, VALID_PAYMENT_STATUSES,
    VALID_PAYMENT_METHODS, sne_pending_paid, sne_partial_paid, sne_b2_b1, sne_b1_b2,
    sne_cash_bank, sne_cash_credit, fifoPayload2, resultStore, Except.isOk, Except.toBool, httpError] <;> simp
  · norm_num [createBill, processItems, processItem, fifoWalk, eligibleBatches, sortBatches,
    insertBatch, batchLE, findCustomer, findProduct, findBatch, saveBatchList, saveProductList,
    calculateFinancials, subtotalOf, discountAmountOf, taxableBaseOf, taxAmountOf, totalAmountOf,
    clamp, roundToTwo, round_eq, normalizePaymentStatus, normalizePaymentMethod, persistItem,
    itemLabel, fifoStore, fifoPayload, fifoProduct, batchB1, batchB2, sampleCustomer,
    fifoExpectedBill, fifoExpectedStore, List.find?, List.filter, VALID_PAYMENT_STATUSES,
    VALID_PAYMENT_METHODS, sne_pending_paid, sne_partial_paid, sne_b2_b1, sne_b1_b2,
    sne_cash_bank, sne_cash_credit, fifoPayload2, resultStore, Except.isOk, Except.toBool, httpError] <;> simp
  · norm_num [createBill, processItems, processItem, fifoWalk, eligibleBatches, sortBatches,
    insertBatch, batchLE, findCustomer, findProduct, findBatch, saveBatchList, saveProductList,
    calculateFinancials, subtotalOf, discountAmountOf, taxableBaseOf, taxAmountOf, totalAmountOf,
    clamp, roundToTwo, round_eq, normalizePaymentStatus, normalizePaymentMethod, persistItem,
    itemLabel, fifoStore, fifoPayload, fifoProduct, batchB1, batchB2, sampleCustomer,
    fifoExpectedBill, fifoExpectedStore, List.find?, List.filter, VALID_PAYMENT_STATUSES,
    VALID_PAYMENT_METHODS, sne_pending_paid, sne_partial_paid, sne_b2_b1, sne_b1_b2,
    sne_cash_bank, sne_cash_credit, fifoPayload2, resultStore, Batch.mk.injEq, Except.isOk, Except.toBool, httpError] <;> simp

/-- C3 as amended: when the first line item of a two-line bill allocates
successfully and the second line item fails, the whole bill operation fails
with the second item's error, but the first item's batch and product saves
remain in the persisted store — the per-item saves are not rolled back. -/
theorem createBill_partial_persistence (store : Store) (payload : CreateBillPayload)
    (r1 r2 : ReqItem) (customer : Customer)
    (hc : findCustomer store.customers payload.customerId = some customer)
    (hitems : payload.items = [r1, r2])
    (its1 : List CtrlItem) (b1 : List Batch) (p1 : List Product) (e : HError)
    (h1 : processItem store.batches store.products 0 r1 = .ok (its1, b1, p1))
    (h2 : processItem b1 p1 1 r2 = .error e) :
    createBill store payload = .error (e, { store with batches := b1, products := p1 }) := by
  simp only [createBill, hc, hitems, processItems, h1, h2]
  rw [if_neg (show ¬([r1, r2] = ([] : List ReqItem)) by simp)]

/-- Witness for the amended C3 at the concrete two-line payload. -/
theorem createBill_partial_persistence_witness :
    createBill fifoStore fifoPayload2
      = .error (httpError 400 (itemLabel 1 ++ "Only so many units available for '" ++ "Widget" ++ "'."),
          fifoPartialStore) :=
  createBill_partial_persistence fifoStore fifoPayload2 ⟨1, 15, none⟩ ⟨1, 10, none⟩
    sampleCustomer
    (by norm_num [findCustomer, fifoStore, sampleCustomer, fifoPayload2, List.find?]) rfl
    [⟨1, some "B1", "Widget", 10, 100, 1000⟩, ⟨1, some "B2", "Widget", 5, 120, 600⟩]
    [{ batchB1 with quantity := 0 }, { batchB2 with quantity := 5 }]
    [{ fifoProduct with quantity := 5 }]
    (httpError 400 (itemLabel 1 ++ "Only so many units available for '" ++ "Widget" ++ "'."))
    (by norm_num [createBill, processItems, processItem, fifoWalk, eligibleBatches, sortBatches,
    insertBatch, batchLE, findCustomer, findProduct, findBatch, saveBatchList, saveProductList,
    calculateFinancials, subtotalOf, discountAmountOf, taxableBaseOf, taxAmountOf, totalAmountOf,
    clamp, roundToTwo, round_eq, normalizePaymentStatus, normalizePaymentMethod, persistItem,
    itemLabel, fifoStore, fifoPayload, fifoProduct, batchB1, batchB2, sampleCustomer,
    fifoExpectedBill, fifoExpectedStore, List.find?, List.filter, VALID_PAYMENT_STATUSES,
    VALID_PAYMENT_METHODS, sne_pending_paid, sne_partial_paid, sne_b2_b1, sne_b1_b2,
    sne_cash_bank, sne_cash_credit, Except.isOk, Except.toBool, httpError])
    (by norm_num [createBill, processItems, processItem, fifoWalk, eligibleBatches, sortBatches,
    insertBatch, batchLE, findCustomer, findProduct, findBatch, saveBatchList, saveProductList,
    calculateFinancials, subtotalOf, discountAmountOf, taxableBaseOf, taxAmountOf, totalAmountOf,
    clamp, roundToTwo, round_eq, normalizePaymentStatus, normalizePaymentMethod, persistItem,
    itemLabel, fifoStore, fifoPayload, fifoProduct, batchB1, batchB2, sampleCustomer,
    fifoExpectedBill, fifoExpectedStore, List.find?, List.filter, VALID_PAYMENT_STATUSES,
    VALID_PAYMENT_METHODS, sne_pending_paid, sne_partial_paid, sne_b2_b1, sne_b1_b2,
    sne_cash_bank, sne_cash_credit, Except.isOk, Except.toBool, httpError])

/-- C4 counterexample: with a stale cached product quantity of 0 while the
product's eligible batches still hold 20 units, requesting 5 units is
rejected with a 400 error — the engine trusts the cached product quantity,
not the batches, for the amount available. -/
theorem createBill_stale_cache_rejects :
    sumQuantity (eligibleBatches staleStore.batches 1) = 20 ∧
    (createBill staleStore (fifoPayload 5)).isOk = false ∧
    resultStatus (createBill staleStore (fifoPayload 5)) = 400 := by
  refine ⟨?_, ?_, ?_⟩
  · norm_num [eligibleBatches, sortBatches, insertBatch, batchLE, sumQuantity,
      staleStore, batchB1, batchB2, List.filter, sne_b2_b1, sne_b1_b2]
  · norm_num [createBill, processItems, processItem, fifoWalk, eligibleBatches, sortBatches,
    insertBatch, batchLE, findCustomer, findProduct, findBatch, saveBatchList, saveProductList,
    calculateFinancials, subtotalOf, discountAmountOf, taxableBaseOf, taxAmountOf, totalAmountOf,
    clamp, roundToTwo, round_eq, normalizePaymentStatus, normalizePaymentMethod, persistItem,
    itemLabel, fifoStore, fifoPayload, fifoProduct, batchB1, batchB2, sampleCustomer,
    fifoExpectedBill, fifoExpectedStore, List.find?, List.filter, VALID_PAYMENT_STATUSES,
    VALID_PAYMENT_METHODS, sne_pending_paid, sne_partial_paid, sne_b2_b1, sne_b1_b2,
    sne_cash_bank, sne_cash_credit, staleStore, staleProduct, resultStatus, Except.isOk, Except.toBool, httpError]
  · norm_num [createBill, processItems, processItem, fifoWalk, eligibleBatches, sortBatches,
    insertBatch, batchLE, findCustomer, findProduct, findBatch, saveBatchList, saveProductList,
    calculateFinancials, subtotalOf, discountAmountOf, taxableBaseOf, taxAmountOf, totalAmountOf,
    clamp, roundToTwo, round_eq, normalizePaymentStatus, normalizePaymentMethod, persistItem,
    itemLabel, fifoStore, fifoPayload, fifoProduct, batchB1, batchB2, sampleCustomer,
    fifoExpectedBill, fifoExpectedStore, List.find?, List.filter, VALID_PAYMENT_STATUSES,
    VALID_PAYMENT_METHODS, sne_pending_paid, sne_partial_paid, sne_b2_b1, sne_b1_b2,
    sne_cash_bank, sne_cash_credit, staleStore, staleProduct, resultStatus, Except.isOk, Except.toBool, httpError]

/-- C4 as amended: a single-line bill without a pinned batch succeeds only
when both stock views cover the request; in particular, when the cached
product quantity covers the request AND the eligible batches hold at least
the requested quantity, allocation succeeds. -/
theorem createBill_cached_and_batches (store : Store) (payload : CreateBillPayload)
    (req : ReqItem) (customer : Customer) (product : Product)
    (hc : findCustomer store.customers payload.customerId = some customer)
    (hitems : payload.items = [req])
    (hbn : req.batchNumber = none)
    (hq : 0 < req.quantity)
    (hp : findProduct store.products req.productId = some product)
    (hcache : ¬(product.quantity < req.quantity))
    (hbat : req.quantity ≤ sumQuantity (eligibleBatches store.batches req.productId)) :
    (createBill store payload).isOk = true := by
  have hpid : product.id = req.productId := by simpa using List.find?_some hp
  have hup := fifoWalk_remaining_le product.id product.name req.quantity
    (eligibleBatches store.batches product.id) (fun x hx => eligibleBatches_pos hx)
  have hnot : ¬(0 < (fifoWalk product.id product.name req.quantity
      (eligibleBatches store.batches product.id)).2.2) := by
    rw [hpid] at hup ⊢
    have hm : max (req.quantity - sumQuantity (eligibleBatches store.batches req.productId)) 0
        = 0 := max_eq_right (by linarith)
    rw [hm] at hup
    exact not_lt.mpr hup
  have hni : ¬(payload.items = []) := by rw [hitems]; simp
  simp only [createBill, hc, if_neg hni, hitems, processItems, processItem,
    if_neg (not_le.mpr hq), hp, hbn, if_neg hcache, if_neg hnot]
  rfl

/-- Witness for the amended C4: in the healthy FIFO scenario (cached 20,
batches 20) a request of 15 succeeds. -/
theorem createBill_cached_and_batches_witness :
    (createBill fifoStore (fifoPayload 15)).isOk = true :=
  createBill_cached_and_batches fifoStore (fifoPayload 15) ⟨1, 15, none⟩ sampleCustomer
    fifoProduct
    (by norm_num [findCustomer, fifoStore, sampleCustomer, fifoPayload, List.find?]) rfl rfl
    (by norm_num)
    (by norm_num [findProduct, fifoStore, fifoProduct, fifoPayload, List.find?])
    (by norm_num [fifoProduct])
    (by norm_num [eligibleBatches, sortBatches, insertBatch, batchLE, sumQuantity,
      fifoStore, batchB1, batchB2, List.filter, sne_b2_b1, sne_b1_b2])

/-- C9: the controller's in-memory line items for the FIFO sale carry the
allocated batch numbers B1 and B2, but the persisted bill's line items pass
through the `itemSchema` projection, which has no `batchNumber` path: the
saved items record only name, quantity, price and total, and the projection
discards any batch number — the resolved batch number is not persisted. -/
theorem persistedItems_lack_batchNumber :
    (fifoWalk 1 "Widget" 15 (eligibleBatches fifoStore.batches 1)).1.map
        (fun it => it.batchNumber) = [some "B1", some "B2"] ∧
    (createBill fifoStore (fifoPayload 15)).map (fun r => r.1.items)
        = .ok [⟨1, "Widget", 10, 100, 1000⟩, ⟨1, "Widget", 5, 120, 600⟩] ∧
    ∀ it : CtrlItem, persistItem it = persistItem { it with batchNumber := none } := by
  refine ⟨?_, ?_, fun it => rfl⟩
  · norm_num [createBill, processItems, processItem, fifoWalk, eligibleBatches, sortBatches,
    insertBatch, batchLE, findCustomer, findProduct, findBatch, saveBatchList, saveProductList,
    calculateFinancials, subtotalOf, discountAmountOf, taxableBaseOf, taxAmountOf, totalAmountOf,
    clamp, roundToTwo, round_eq, normalizePaymentStatus, normalizePaymentMethod, persistItem,
    itemLabel, fifoStore, fifoPayload, fifoProduct, batchB1, batchB2, sampleCustomer,
    fifoExpectedBill, fifoExpectedStore, List.find?, List.filter, VALID_PAYMENT_STATUSES,
    VALID_PAYMENT_METHODS, sne_pending_paid, sne_partial_paid, sne_b2_b1, sne_b1_b2,
    sne_cash_bank, sne_cash_credit, Except.isOk, Except.toBool, httpError]
  · norm_num [createBill, processItems, processItem, fifoWalk, eligibleBatches, sortBatches,
    insertBatch, batchLE, findCustomer, findProduct, findBatch, saveBatchList, saveProductList,
    calculateFinancials, subtotalOf, discountAmountOf, taxableBaseOf, taxAmountOf, totalAmountOf,
    clamp, roundToTwo, round_eq, normalizePaymentStatus, normalizePaymentMethod, persistItem,
    itemLabel, fifoStore, fifoPayload, fifoProduct, batchB1, batchB2, sampleCustomer,
    fifoExpectedBill, fifoExpectedStore, List.find?, List.filter, VALID_PAYMENT_STATUSES,
    VALID_PAYMENT_METHODS, sne_pending_paid, sne_partial_paid, sne_b2_b1, sne_b1_b2,
    sne_cash_bank, sne_cash_credit, Except.map, Except.isOk, Except.toBool, httpError]

/-- C10: payment methods and statuses are silently normalized, never
rejected: every normalized method lies in the valid set, `"bank"` maps to
`"bank_transfer"`, any other unrecognized method becomes `"cash"`, any
unrecognized status becomes `"pending"`, and the success or failure of bill
creation is independent of the supplied method and status. -/
theorem paymentNormalization (m s : String) (store : Store) (payload : CreateBillPayload) :
    VALID_PAYMENT_METHODS.contains (normalizePaymentMethod m) = true ∧
    normalizePaymentMethod "bank" = "bank_transfer" ∧
    (VALID_PAYMENT_METHODS.contains m = false → ¬(m = "bank") →
      normalizePaymentMethod m = "cash") ∧
    VALID_PAYMENT_STATUSES.contains (normalizePaymentStatus s) = true ∧
    (VALID_PAYMENT_STATUSES.contains s = false → normalizePaymentStatus s = "pending") ∧
    (createBill store { payload with paymentMethod := m, paymentStatus := s }).isOk
      = (createBill store payload).isOk := by
  refine ⟨?_, by decide, ?_, ?_, ?_, ?_⟩
  · rw [normalizePaymentMethod]
    split_ifs with h1 h2
    · decide
    · exact h2
    · decide
  · intro hcon hb
    rw [normalizePaymentMethod, if_neg hb, if_neg (by rw [hcon]; simp)]
  · rw [normalizePaymentStatus]
    split_ifs with h1
    · exact h1
    · decide
  · intro hcon
    rw [normalizePaymentStatus, if_neg (by rw [hcon]; simp)]
  · simp only [createBill]
    cases hc : findCustomer store.customers payload.customerId with
    | none => rfl
    | some customer =>
      simp only [hc]
      by_cases hi : payload.items = []
      · rw [if_pos hi, if_pos hi]
      · rw [if_neg hi, if_neg hi]
        cases hpi : processItems store.batches store.products 0 payload.items with
        | error e =>
          obtain ⟨e1, b1, p1⟩ := e
          simp only [hpi]
        | ok v =>
          obtain ⟨its, b1, p1⟩ := v
          simp only [hpi]
          rfl

/-- Witness for C10: an unrecognized method becomes cash and an unrecognized
status becomes pending. -/
theorem paymentNormalization_witness :
    normalizePaymentMethod "venmo" = "cash" ∧ normalizePaymentStatus "unknown" = "pending" :=
  ⟨(paymentNormalization "venmo" "unknown" fifoStore (fifoPayload 1)).2.2.1
      (by decide) (by decide),
   (paymentNormalization "venmo" "unknown" fifoStore (fifoPayload 1)).2.2.2.2.1 (by decide)⟩

/-- C8: after the stock notifier runs for a product with quantity q ≥ 0
(the reorder level defaulting to 10 when unset or non-positive), starting
from a store holding at most one unread notification per type for the
product: if q = 0 there is exactly one unread out-of-stock and no unread
low-stock notification; if 0 < q ≤ reorder level there is exactly one unread
low-stock and no unread out-of-stock notification; otherwise neither type
has an unread notification.  In every case at most one unread notification
per (product, type) remains, so repeating the call with the same quantity
never creates a duplicate. -/
theorem handleStockNotifications_spec (now : Int) (ns : List Notification) (p : Product)
    (q : ℚ) (hq : 0 ≤ q)
    (hoos : unreadCount ns p.id "out-of-stock" ≤ 1)
    (hlow : unreadCount ns p.id "low-stock" ≤ 1) :
    (q = 0 →
      unreadCount (handleStockNotifications now ns p q) p.id "out-of-stock" = 1 ∧
      unreadCount (handleStockNotifications now ns p q) p.id "low-stock" = 0) ∧
    (0 < q → q ≤ getReorderLevel p →
      unreadCount (handleStockNotifications now ns p q) p.id "low-stock" = 1 ∧
      unreadCount (handleStockNotifications now ns p q) p.id "out-of-stock" = 0) ∧
    (getReorderLevel p < q →
      unreadCount (handleStockNotifications now ns p q) p.id "low-stock" = 0 ∧
      unreadCount (handleStockNotifications now ns p q) p.id "out-of-stock" = 0) ∧
    unreadCount (handleStockNotifications now ns p q) p.id "out-of-stock" ≤ 1 ∧
    unreadCount (handleStockNotifications now ns p q) p.id "low-stock" ≤ 1 := by
  have hr := getReorderLevel_pos p
  by_cases h0 : q = 0
  · have hns : handleStockNotifications now ns p q
        = clearNotifications (upsertNotification now ns p.id "out-of-stock"
            (p.name ++ " is out of stock")) p.id ["low-stock"] := by
      simp only [handleStockNotifications]
      rw [if_pos h0]
    have e1 : unreadCount (handleStockNotifications now ns p q) p.id "out-of-stock" = 1 := by
      rw [hns, unreadCount_clear_not_mem _ _ _ _ (by decide),
        unreadCount_upsert now p.id "out-of-stock" (p.name ++ " is out of stock") ns hoos]
    have e2 : unreadCount (handleStockNotifications now ns p q) p.id "low-stock" = 0 := by
      rw [hns, unreadCount_clear_mem _ _ _ _ (by decide)]
    refine ⟨fun _ => ⟨e1, e2⟩, ?_, ?_, by omega, by omega⟩
    · intro hq1 _
      exact absurd h0 (ne_of_gt hq1)
    · intro hlt
      rw [h0] at hlt
      exact absurd hlt (not_lt.mpr (le_of_lt hr))
  · by_cases hle : q ≤ getReorderLevel p
    · have hns : handleStockNotifications now ns p q
          = clearNotifications (upsertNotification now ns p.id "low-stock"
              (p.name ++ " has reached its reorder level")) p.id ["out-of-stock"] := by
        simp only [handleStockNotifications]
        rw [if_neg h0, if_pos hle]
      have e1 : unreadCount (handleStockNotifications now ns p q) p.id "low-stock" = 1 := by
        rw [hns, unreadCount_clear_not_mem _ _ _ _ (by decide),
          unreadCount_upsert now p.id "low-stock"
            (p.name ++ " has reached its reorder level") ns hlow]
      have e2 : unreadCount (handleStockNotifications now ns p q) p.id "out-of-stock" = 0 := by
        rw [hns, unreadCount_clear_mem _ _ _ _ (by decide)]
      refine ⟨fun hq0 => absurd hq0 h0, fun _ _ => ⟨e1, e2⟩, ?_, by omega, by omega⟩
      intro hlt
      exact absurd hle (not_le.mpr hlt)
    · have hns : handleStockNotifications now ns p q
          = clearNotifications ns p.id ["low-stock", "out-of-stock"] := by
        simp only [handleStockNotifications]
        rw [if_neg h0, if_neg hle]
      have e1 : unreadCount (handleStockNotifications now ns p q) p.id "low-stock" = 0 := by
        rw [hns, unreadCount_clear_mem _ _ _ _ (by decide)]
      have e2 : unreadCount (handleStockNotifications now ns p q) p.id "out-of-stock" = 0 := by
        rw [hns, unreadCount_clear_mem _ _ _ _ (by decide)]
      exact ⟨fun hq0 => absurd hq0 h0, fun _ hle2 => absurd hle2 hle,
        fun _ => ⟨e1, e2⟩, by omega, by omega⟩

/-- Witness for C8: on an empty notification store, quantity 0 leaves
exactly one unread out-of-stock and no unread low-stock notification. -/
theorem handleStockNotifications_spec_witness :
    unreadCount (handleStockNotifications 0 [] fifoProduct 0) fifoProduct.id
        "out-of-stock" = 1 ∧
    unreadCount (handleStockNotifications 0 [] fifoProduct 0) fifoProduct.id
        "low-stock" = 0 :=
  (handleStockNotifications_spec 0 [] fifoProduct 0 le_rfl (Nat.zero_le 1)
    (Nat.zero_le 1)).1 rfl

/-- C7: updating a bill with exactly the items it already has (same
products, names, quantities and prices) and the same discount/tax/paid/
status parameters leaves every product quantity, every batch, and every
customer balance unchanged: the per-product net adjustment is 0 for every
product, and the applied outstanding-balance change
`(new dueAmount) − (old dueAmount)` is 0. -/
theorem updateBill_idempotent (store : Store) (billId : Nat) (payload : UpdateBillPayload)
    (existingBill : PersistedBill) (customer : Customer)
    (hfindb : store.bills.find? (fun b => b.id == billId) = some existingBill)
    (hfindc : findCustomer store.customers existingBill.customerId = some customer)
    (hitems : payload.items = existingBill.items.map toUpdateItem)
    (hne : ¬(existingBill.items = []))
    (hwf : ∀ it ∈ existingBill.items, 0 < it.quantity ∧ 0 ≤ it.price ∧ IsCent it.price
      ∧ it.total = roundToTwo (it.price * it.quantity))
    (dp tp paid : ℚ) (st pm : String)
    (hdp : payload.discountPercent = some dp) (htp : payload.taxPercent = some tp)
    (hpaid : payload.paidAmount = some paid) (hst : payload.paymentStatus = some st)
    (hpm : payload.paymentMethod = some pm)
    (hdue : existingBill.dueAmount
      = (calculateFinancials ⟨existingBill.items.map fun it => ⟨it.total⟩, dp, tp, paid,
          st⟩).dueAmount) :
    (updateBill store billId payload).isOk = true ∧
    (resultStore (updateBill store billId payload)).products = store.products ∧
    (resultStore (updateBill store billId payload)).batches = store.batches ∧
    (resultStore (updateBill store billId payload)).customers = store.customers := by
  have hni : ¬(payload.items = []) := by
    rw [hitems, List.map_eq_nil_iff]
    exact hne
  have hwf1 : ∀ it ∈ payload.items, 0 < it.quantity ∧ 0 ≤ it.price := by
    rw [hitems]
    intro it hit
    obtain ⟨b, hb, rfl⟩ := List.mem_map.mp hit
    exact ⟨(hwf b hb).1, (hwf b hb).2.1⟩
  have hmfinal : ∀ k, adjLookup (payload.items.foldl
      (fun mm it => applyAdjustment mm it.productId (-it.quantity))
      (existingBill.items.foldl
        (fun m item => applyAdjustment m item.productId item.quantity) [])) k = 0 := by
    intro k
    have hA : adjLookup (payload.items.foldl
        (fun mm it => applyAdjustment mm it.productId (-it.quantity))
        (existingBill.items.foldl
          (fun m item => applyAdjustment m item.productId item.quantity) [])) k
        = adjLookup (existingBill.items.foldl
            (fun m item => applyAdjustment m item.productId item.quantity) []) k
          + ((payload.items.filter (fun it => it.productId == k)).map
              (fun it => -it.quantity)).sum :=
      adjLookup_foldl _ _ payload.items _ k
    have hB : adjLookup (existingBill.items.foldl
        (fun m item => applyAdjustment m item.productId item.quantity) []) k
        = adjLookup [] k + ((existingBill.items.filter (fun it => it.productId == k)).map
            (fun it => it.quantity)).sum :=
      adjLookup_foldl _ _ existingBill.items _ k
    rw [hA, hB, hitems, sum_filter_map_toUpdateItem]
    simp only [adjLookup]
    ring
  have hentries : ∀ e ∈ payload.items.foldl
      (fun mm it => applyAdjustment mm it.productId (-it.quantity))
      (existingBill.items.foldl
        (fun m item => applyAdjustment m item.productId item.quantity) []), e.2 = 0 := by
    intro e he
    have hnd : ((payload.items.foldl
        (fun mm it => applyAdjustment mm it.productId (-it.quantity))
        (existingBill.items.foldl
          (fun m item => applyAdjustment m item.productId item.quantity) [])).map
        Prod.fst).Nodup :=
      nodup_keys_foldl _ _ payload.items _
        (nodup_keys_foldl _ _ existingBill.items [] (by simp))
    rw [adjLookup_of_mem hnd e he]
    exact hmfinal e.1
  have happly : applyProductAdjustments store.products (payload.items.foldl
      (fun mm it => applyAdjustment mm it.productId (-it.quantity))
      (existingBill.items.foldl
        (fun m item => applyAdjustment m item.productId item.quantity) []))
      = .ok store.products :=
    applyProductAdjustments_zero store.products _ hentries
  have hproc := processUpdateItems_ok payload.items
    (existingBill.items.foldl
      (fun m item => applyAdjustment m item.productId item.quantity) []) 0 hwf1
  have hinp : List.map (fun it => ({ total := it.total } : FinItem))
      (List.map (fun it : UpdateItem => (⟨it.productId, none, it.name, it.quantity,
        roundToTwo it.price, roundToTwo (roundToTwo it.price * it.quantity)⟩ : CtrlItem))
        payload.items)
      = existingBill.items.map (fun it => ({ total := it.total } : FinItem)) := by
    rw [List.map_map, hitems, List.map_map]
    apply List.map_congr_left
    intro b hb
    have hw := hwf b hb
    show FinItem.mk (roundToTwo (roundToTwo b.price * b.quantity)) = FinItem.mk b.total
    rw [roundToTwo_of_isCent hw.2.2.1, ← hw.2.2.2]
  have hd : IsCent existingBill.dueAmount := by
    rw [hdue]
    exact isCent_roundToTwo _
  have hneg : roundToTwo (existingBill.dueAmount * (-1)) + existingBill.dueAmount = 0 := by
    rw [mul_neg_one, roundToTwo_of_isCent hd.neg]
    exact neg_add_cancel _
  simp only [updateBill, hfindb, hfindc, if_neg hni, hproc, happly, hdp, htp, hpaid, hst, hpm,
    Option.getD_some, hinp, ← hdue, hneg, add_zero]
  refine ⟨rfl, rfl, rfl, ?_⟩
  have hmap : ∀ c ∈ store.customers,
      (if c.id = customer.id
        then { c with outstandingBalance := c.outstandingBalance } else c) = c := by
    intro c _
    split_ifs <;> rfl
  rw [List.map_congr_left hmap]
  exact List.map_id' _

/-- Witness for C7 at the concrete store and bill. -/
theorem updateBill_idempotent_witness :
    (updateBill c7Store 0 c7Payload).isOk = true ∧
    (resultStore (updateBill c7Store 0 c7Payload)).products = c7Store.products ∧
    (resultStore (updateBill c7Store 0 c7Payload)).batches = c7Store.batches ∧
    (resultStore (updateBill c7Store 0 c7Payload)).customers = c7Store.customers :=
  updateBill_idempotent c7Store 0 c7Payload c7Bill sampleCustomer
    (by norm_num [c7Store, c7Bill, List.find?])
    (by norm_num [findCustomer, c7Store, c7Bill, sampleCustomer, List.find?])
    rfl
    (by simp [c7Bill])
    (by
      intro it hit
      simp only [c7Bill, List.mem_singleton] at hit
      subst hit
      refine ⟨by norm_num, by norm_num, ⟨1000, by norm_num⟩, ?_⟩
      rw [roundToTwo, round_eq]
      norm_num)
    0 0 0 "pending" "cash" rfl rfl rfl rfl rfl
    (by
      have hne : ("pending" : String) ≠ "paid" := by decide
      simp only [calculateFinancials, c7Bill, List.map_cons, List.map_nil]
      norm_num [subtotalOf, discountAmountOf, taxableBaseOf, taxAmountOf, totalAmountOf,
        clamp, roundToTwo, round_eq, normalizePaymentStatus, VALID_PAYMENT_STATUSES, hne])

end IMS